import Mathlib

/-!
Verification development for a transcript question-answering service.

The definitions below are a shallow embedding of the Python sources:
`chatbot/services.py` (URL resolution, transcript fetching and
classification, transcript processing and batched vector-index
construction), `chatbot/views.py` (synchronous ingestion pipeline and
the question view), `chatbot/tasks.py` (asynchronous ingestion
pipeline) and `chatbot/models.py` (persisted records).  External
collaborators (embedding provider, vector index library, text
splitter, transcript provider, data store) are modelled as explicit
parameters or outcome values.  Theorems about these definitions follow
after all definitions.
-/

set_option maxHeartbeats 1000000

namespace RagChatbot

/-! ### Character-list helpers

Python string operations used by the source are modelled over
`List Char`: literal matching at the head of a list, substring
containment (the Python `in` operator) and ASCII lowercasing
(the Python `str.lower` method, which agrees with `Char.toLower`
on ASCII input). -/

/-- Holds when the literal `lit` occurs at the head of `cs`. -/
def litMatch : List Char → List Char → Bool
  | [], _ => true
  | _ :: _, [] => false
  | a :: as, b :: bs => a == b && litMatch as bs

/-- Models the Python containment expression `needle in hay`. -/
def subIn (needle : List Char) : List Char → Bool
  | [] => needle.isEmpty
  | c :: t => litMatch needle (c :: t) || subIn needle t

/-- Substring containment lifted to `String`. -/
def containsStr (needle hay : String) : Bool :=
  subIn needle.data hay.data

/-- Models `str.lower` (exact for the ASCII input produced by the provider). -/
def lowerStr (s : String) : String :=
  String.mk (s.data.map Char.toLower)

/-! ### VideoReferenceResolver: `YouTubeTranscriptProcessor.extract_video_id`

The source tries three regular expressions in order:

* `(?:youtube\.com\/watch\?v=|youtu\.be\/)([^&\n?#]+)`
* `youtube\.com\/embed\/([^&\n?#]+)`
* `youtube\.com\/v\/([^&\n?#]+)`

Each pattern is a choice of literal alternatives followed by a
greedy, non-empty capture of characters outside `&`, newline, `?`,
`#`.  `re.search` scans positions left to right and, at each
position, tries the alternatives in order; the capture takes the
maximal run of allowed characters.  A match whose capture is not
exactly 11 characters long is rejected and the next pattern is
tried (`services.py`, lines 45-65). -/

/-- Characters that terminate the capture group `[^&\n?#]+`. -/
def isBanned (c : Char) : Bool :=
  c == '&' || c == '\n' || c == '?' || c == '#'

/-- Try one literal alternative at the current position: the literal must
occur here and the following run of allowed characters must be non-empty. -/
def captureAt (lit cs : List Char) : Option (List Char) :=
  if litMatch lit cs then
    let cap := (cs.drop lit.length).takeWhile (fun c => !isBanned c)
    if cap.isEmpty then none else some cap
  else none

/-- Model of `re.search` for one pattern (a list of literal alternatives
followed by the capture): scan positions left to right, at each position
try the alternatives in order. -/
def reSearch (alts : List (List Char)) : List Char → Option (List Char)
  | [] => none
  | c :: cs =>
    match alts.findSome? (fun lit => captureAt lit (c :: cs)) with
    | some cap => some cap
    | none => reSearch alts cs

/-- Alternatives of the first source pattern (watch-query and short-link). -/
def pattern1 : List (List Char) := ["youtube.com/watch?v=".data, "youtu.be/".data]

/-- Alternatives of the second source pattern (embed form). -/
def pattern2 : List (List Char) := ["youtube.com/embed/".data]

/-- Alternatives of the third source pattern (direct-path form). -/
def pattern3 : List (List Char) := ["youtube.com/v/".data]

/-- The ordered pattern list of `extract_video_id`. -/
def urlPatterns : List (List (List Char)) := [pattern1, pattern2, pattern3]

/-- One iteration of the pattern loop of `extract_video_id`: search the
URL with one pattern and accept the capture exactly when it is 11
characters long; a match of the wrong length falls through (the source
only logs a warning in that case). -/
def patternCandidate (url : String) (alts : List (List Char)) : Option String :=
  match reSearch alts url.data with
  | some cap => if cap.length == 11 then some (String.mk cap) else none
  | none => none

/-- Model of `YouTubeTranscriptProcessor.extract_video_id`: for each pattern
in order, search the URL; on a match return the capture when it is exactly
11 characters long, otherwise fall through to the next pattern; return
`none` when every pattern fails. -/
def extract_video_id (url : String) : Option String :=
  urlPatterns.findSome? (patternCandidate url)

/-! ### Data model (`chatbot/models.py`)

`ProcessingStatus.status` is one of six string choices; the record also
carries an integer progress and a text error-message field that defaults
to the empty string.  `VideoTranscript` holds the raw segments, the
derived full text, the chunk count and the embeddings flag.  A chat
message holds the question, the answer and the context used. -/

/-- The six status choices of the `ProcessingStatus` model. -/
inductive PStatus where
  | pending
  | fetching
  | processing
  | embedding
  | completed
  | error
deriving DecidableEq

/-- One persisted value of a `ProcessingStatus` record (status, progress
percentage and error message).  The pipeline persists a sequence of these
snapshots with `status.save()`. -/
structure Snapshot where
  status : PStatus
  progress : Nat
  error_message : String
deriving DecidableEq

/-- One raw transcript entry as returned by the provider: a dictionary in
which each of the three expected fields may be missing. -/
structure RawEntry where
  text : Option String
  start : Option Int
  duration : Option Int
deriving DecidableEq

/-- One converted transcript segment as stored by the application. -/
structure Segment where
  text : String
  start : Int
  duration : Int
deriving DecidableEq

/-- The persisted `VideoTranscript` record. -/
structure TranscriptRec where
  raw_transcript : List Segment
  full_text : String
  chunk_count : Nat
  embeddings_created : Bool
deriving DecidableEq

/-! ### TranscriptSource: `YouTubeTranscriptProcessor.fetch_transcript`

The provider call (`ytt_api.fetch` plus `to_raw_data`) is modelled as an
outcome value: either a list of raw entries or a raised exception with a
description string.  On an exception the source classifies the lowercased
description by substring containment (`services.py`, lines 131-154). -/

/-- Result of `fetch_transcript`: success with segments and a language tag,
or failure with a message. -/
inductive FetchResult where
  | ok (transcript : List Segment) (language : String)
  | fail (error : String)
deriving DecidableEq

/-- Message returned when the description contains both `transcript`
and `disabled`. -/
def disabledMsg : String :=
  "Transcripts are disabled for this video by the video owner."

/-- Message returned when the description contains `private` or
`unavailable`. -/
def unavailableMsg : String :=
  "This video is private, unavailable, or restricted."

/-- Message returned when the description contains `not found`. -/
def notFoundMsg : String :=
  "No transcript is available for this video. This may be because the video is too new, has no captions, or captions are disabled."

/-- Message returned when the provider yields an empty entry list. -/
def noDataMsg : String :=
  "No transcript data returned from the API."

/-- Message returned when the converted segment list is empty. -/
def malformedMsg : String :=
  "Transcript was found but contained no usable text data."

/-- Classification of a provider exception description
(`services.py`, lines 133-154): the description is lowercased and probed
for known substrings; unmatched descriptions produce a generic message
carrying the original detail. -/
def classify_fetch_failure (d : String) : String :=
  let m := lowerStr d
  if containsStr "transcript" m && containsStr "disabled" m then
    disabledMsg
  else if containsStr "private" m || containsStr "unavailable" m then
    unavailableMsg
  else if containsStr "not found" m then
    notFoundMsg
  else
    "Failed to fetch transcript: " ++ d

/-- Conversion of one provider entry (`entry.get` with defaults,
`services.py`, lines 109-113): missing text defaults to the empty string,
missing start and duration default to zero.  The `except` branch that
would skip an entry is unreachable because the Python `dict.get` method
never raises. -/
def fillEntry (e : RawEntry) : Segment :=
  { text := e.text.getD "", start := e.start.getD 0, duration := e.duration.getD 0 }

/-- The conversion loop of `fetch_transcript` (`services.py`, lines
106-116), one output segment per provider entry. -/
def convertEntries : List RawEntry → List Segment
  | [] => []
  | e :: es => fillEntry e :: convertEntries es

/-- Model of `YouTubeTranscriptProcessor.fetch_transcript`
(`services.py`, lines 87-154).  The argument is the outcome of the
provider call: `Except.error d` models a raised exception whose string
representation is `d`. -/
def fetch_transcript (provider : Except String (List RawEntry)) : FetchResult :=
  match provider with
  | .error d => .fail (classify_fetch_failure d)
  | .ok transcript_data =>
    if transcript_data.isEmpty then
      .fail noDataMsg
    else
      let raw_data := convertEntries transcript_data
      if raw_data.isEmpty then
        .fail malformedMsg
      else
        .ok raw_data "auto-detected"

/-! ### Specification-side classification (for comparison with the source)

The specification describes fetch-failure classification as a typed
enumeration driven by substring checks.  `FetchError` and
`specClassify` follow the amended specification wording: captions are
reported disabled when the description contains both `transcript` and
`disabled`; the remaining checks are tried in order. -/

/-- The specification error enumeration for transcript fetching. -/
inductive FetchError where
  | Disabled
  | Unavailable
  | NotFound
  | Other (detail : String)
deriving DecidableEq

/-- Classification following the amended specification wording. -/
def specClassify (d : String) : FetchError :=
  let m := lowerStr d
  if containsStr "transcript" m && containsStr "disabled" m then
    .Disabled
  else if containsStr "private" m || containsStr "unavailable" m then
    .Unavailable
  else if containsStr "not found" m then
    .NotFound
  else
    .Other d

/-- The user-facing message attached to each specification error. -/
def fetchErrorMessage : FetchError → String
  | .Disabled => disabledMsg
  | .Unavailable => unavailableMsg
  | .NotFound => notFoundMsg
  | .Other d => "Failed to fetch transcript: " ++ d

/-! ### Chunker input: full-text reconstruction

`process_transcript` starts with
`full_text = ' '.join(segment['text'] for segment in transcript_data)`
(`services.py`, line 160).  The Python `str.join` builtin is modelled
by `pyJoin`. -/

/-- Model of the Python expression `sep.join(parts)`: the first part,
then separator plus part for each further part. -/
def pyJoin (sep : String) : List String → String
  | [] => ""
  | x :: xs => xs.foldl (fun acc y => acc ++ sep ++ y) x

/-- The full text derived from a segment list (`services.py`, line 160). -/
def fullText (transcript_data : List Segment) : String :=
  pyJoin " " (transcript_data.map Segment.text)

/-- Specification-side definition of full-text reconstruction, following
the specification wording: the segment texts joined in original order
with single-space separators. -/
def spaceJoinSpec : List String → String
  | [] => ""
  | [t] => t
  | t :: ts => t ++ " " ++ spaceJoinSpec ts

/-! ### VectorIndexBuilder: `YouTubeTranscriptProcessor.process_transcript`

The embedding provider is a parameter `emb` that either returns a vector
(of an abstract type `V`) or raises, and the vector store is modelled by
its content: the list of (chunk, vector) entries in insertion order.
`FAISS.from_documents` embeds a batch in order; `merge_from` appends the
entries of a sub-index to the running index.  When more than 60 chunks
are present, the source indexes `documents[:60]` first and then merges
one standalone sub-index per further slice of 60
(`services.py`, lines 169-184). -/

/-- Model of `FAISS.from_documents` for one batch: embed each chunk in
order, raising the first embedding failure. -/
def embedBatch {V : Type} (emb : String → Except String V) :
    List String → Except String (List (String × V))
  | [] => .ok []
  | c :: cs =>
    match emb c with
    | .error e => .error e
    | .ok v =>
      match embedBatch emb cs with
      | .error e => .error e
      | .ok rest => .ok ((c, v) :: rest)

/-- Fuel-indexed slicing of a list into consecutive slices of 60. -/
def toBatchesAux {α : Type} : Nat → List α → List (List α)
  | 0, _ => []
  | _, [] => []
  | fuel + 1, l@(_ :: _) => l.take 60 :: toBatchesAux fuel (l.drop 60)

/-- The slices `documents[i:i+60]` for `i = 0, 60, 120, ...`; applied to
`documents[60:]` this is the `remaining_batches` list of the source. -/
def toBatches {α : Type} (l : List α) : List (List α) :=
  toBatchesAux l.length l

/-- The complete batch decomposition used by the source: one single batch
when at most 60 documents are present, otherwise the first 60 documents
followed by the slices of the rest. -/
def batchPlan {α : Type} (documents : List α) : List (List α) :=
  if documents.length > 60 then
    documents.take 60 :: toBatches (documents.drop 60)
  else
    [documents]

/-- The merge loop over the remaining batches (`services.py`, lines
179-182): build a standalone sub-index per non-empty batch and append its
entries to the running index; a raised embedding failure stops the loop
and leaves the running index at its last merged value. -/
def addBatches {V : Type} (emb : String → Except String V)
    (acc : List (String × V)) :
    List (List String) → List (String × V) × Option String
  | [] => (acc, none)
  | b :: bs =>
    if b.isEmpty then
      addBatches emb acc bs
    else
      match embedBatch emb b with
      | .error e => (acc, some e)
      | .ok es => addBatches emb (acc ++ es) bs

/-- The vector-store construction block (`services.py`, lines 169-184).
The first component is the value of `self.vector_store` after the block
(`none` when no assignment happened before a failure); the second is the
description of the raised embedding failure, when any. -/
def buildVectorStore {V : Type} (emb : String → Except String V)
    (documents : List String) : Option (List (String × V)) × Option String :=
  if documents.length > 60 then
    match embedBatch emb (documents.take 60) with
    | .error e => (none, some e)
    | .ok first =>
      let r := addBatches emb first (toBatches (documents.drop 60))
      (some r.1, r.2)
  else
    match embedBatch emb documents with
    | .error e => (none, some e)
    | .ok es => (some es, none)

/-- The processor fields set by `process_transcript`: the vector store
content and whether `self.retriever` and `self.qa_chain` have been
assigned (they are `None` on a fresh processor). -/
structure ProcState (V : Type) where
  vector_store : Option (List (String × V))
  retriever_set : Bool
  qa_chain_set : Bool
deriving DecidableEq

/-- Result dictionary of `process_transcript`: success carries the full
text and the chunk count, failure carries the error message. -/
inductive ProcResult where
  | ok (full_text : String) (chunk_count : Nat)
  | fail (error : String)
deriving DecidableEq

/-- The message attached to a `process_transcript` failure
(`services.py`, line 206). -/
def procErrMsg (d : String) : String :=
  "Error processing transcript: " ++ d

/-- Model of `YouTubeTranscriptProcessor.process_transcript`
(`services.py`, lines 156-207) on a fresh processor.  The text splitter
is the parameter `split`.  On success the retriever and the chain are
set and the result carries the full text and `len(documents)`; any
raised embedding failure is caught and reported as a processing error,
leaving the retriever and the chain unset. -/
def process_transcript {V : Type} (emb : String → Except String V)
    (split : String → List String) (transcript_data : List Segment) :
    ProcResult × ProcState V :=
  let full_text := fullText transcript_data
  let documents := split full_text
  match buildVectorStore emb documents with
  | (store, some e) =>
    (.fail (procErrMsg e),
     { vector_store := store, retriever_set := false, qa_chain_set := false })
  | (store, none) =>
    (.ok full_text documents.length,
     { vector_store := store, retriever_set := true, qa_chain_set := true })

/-- Model of `YouTubeTranscriptProcessor.is_ready`
(`services.py`, lines 267-269). -/
def is_ready {V : Type} (st : ProcState V) : Bool :=
  st.qa_chain_set && st.retriever_set

/-! ### Retriever

`as_retriever` with similarity search and `k = 4` returns the `k`
entries of the index most similar to the query.  Similarity scores
are modelled by an abstract integer-valued function; the retriever
sorts the entries by descending score and keeps the first `k`. -/

/-- Top-`k` similarity retrieval over an index. -/
def retrieve {V : Type} (sim : V → V → Int) (q : V) (k : Nat)
    (index : List (String × V)) : List String :=
  ((index.insertionSort (fun a b => sim q a.2 ≥ sim q b.2)).take k).map Prod.fst

/-! ### IngestionOrchestrator

`CreateSessionView.post` creates the `ProcessingStatus` record with the
default values (`pending`, progress 0, empty error message) and then
triggers the pipeline: `process_video_async` via the worker when the
worker infrastructure is importable, `_process_video_sync` inline
otherwise.  Both pipelines are modelled as functions from the outcome
parameters (processor initialisation, provider call, text splitter and
embedding provider) to the persisted final state: the ordered sequence
of persisted status snapshots, the transcript record and the session
processed flag.  `process_video_async` is modelled in its worker
execution context, in which the worker infrastructure is available. -/

/-- The persisted state left behind by one ingestion run: every snapshot
of the `ProcessingStatus` record in the order persisted (the first one is
the creation by `CreateSessionView.post`), the `VideoTranscript` record
when one was created, and the session `is_processed` flag. -/
structure RunState where
  snapshots : List Snapshot
  transcript : Option TranscriptRec
  is_processed : Bool
deriving DecidableEq

/-- The message written by the dedicated initialisation handler of the
synchronous path (`views.py`, line 118). -/
def cfgErrMsg (d : String) : String :=
  "Configuration error: " ++ d

/-- Model of `CreateSessionView._process_video_sync`
(`views.py`, lines 102-181), including the `pending` record created by
`CreateSessionView.post` immediately before the trigger.  `init` is the
outcome of `YouTubeTranscriptProcessor()`, `provider` the outcome of the
provider call inside `fetch_transcript`. -/
def process_video_sync {V : Type} (emb : String → Except String V)
    (split : String → List String) (init : Except String Unit)
    (provider : Except String (List RawEntry)) : RunState :=
  let st0 : Snapshot := { status := .pending, progress := 0, error_message := "" }
  let st1 : Snapshot := { st0 with status := .fetching, progress := 10 }
  match init with
  | .error d =>
    let stE := { st1 with status := .error, error_message := cfgErrMsg d }
    { snapshots := [st0, st1, stE], transcript := none, is_processed := false }
  | .ok _ =>
    match fetch_transcript provider with
    | .fail err =>
      let stE := { st1 with status := .error, error_message := err }
      { snapshots := [st0, st1, stE], transcript := none, is_processed := false }
    | .ok segs _lang =>
      let st2 := { st1 with status := .processing, progress := 40 }
      let tr0 : TranscriptRec :=
        { raw_transcript := segs, full_text := "", chunk_count := 0,
          embeddings_created := false }
      let st3 := { st2 with status := .embedding, progress := 70 }
      match (process_transcript emb split segs).1 with
      | .fail e =>
        let stE := { st3 with status := .error, error_message := e }
        { snapshots := [st0, st1, st2, st3, stE], transcript := some tr0,
          is_processed := false }
      | .ok ft cc =>
        let stC := { st3 with status := .completed, progress := 100 }
        { snapshots := [st0, st1, st2, st3, stC],
          transcript := some { raw_transcript := segs, full_text := ft,
                               chunk_count := cc, embeddings_created := true },
          is_processed := true }

/-- Model of `process_video_async` (`tasks.py`, lines 19-98) in the
worker execution context, including the `pending` record created by
`CreateSessionView.post`.  The only textual difference from the
synchronous path is the handling of an initialisation failure: the
exception reaches the generic handler, which stores the raw exception
description instead of the prefixed configuration message. -/
def process_video_async {V : Type} (emb : String → Except String V)
    (split : String → List String) (init : Except String Unit)
    (provider : Except String (List RawEntry)) : RunState :=
  let st0 : Snapshot := { status := .pending, progress := 0, error_message := "" }
  let st1 : Snapshot := { st0 with status := .fetching, progress := 10 }
  match init with
  | .error d =>
    let stE := { st1 with status := .error, error_message := d }
    { snapshots := [st0, st1, stE], transcript := none, is_processed := false }
  | .ok _ =>
    match fetch_transcript provider with
    | .fail err =>
      let stE := { st1 with status := .error, error_message := err }
      { snapshots := [st0, st1, stE], transcript := none, is_processed := false }
    | .ok segs _lang =>
      let st2 := { st1 with status := .processing, progress := 40 }
      let tr0 : TranscriptRec :=
        { raw_transcript := segs, full_text := "", chunk_count := 0,
          embeddings_created := false }
      let st3 := { st2 with status := .embedding, progress := 70 }
      match (process_transcript emb split segs).1 with
      | .fail e =>
        let stE := { st3 with status := .error, error_message := e }
        { snapshots := [st0, st1, st2, st3, stE], transcript := some tr0,
          is_processed := false }
      | .ok ft cc =>
        let stC := { st3 with status := .completed, progress := 100 }
        { snapshots := [st0, st1, st2, st3, stC],
          transcript := some { raw_transcript := segs, full_text := ft,
                               chunk_count := cc, embeddings_created := true },
          is_processed := true }

/-- The observable status and progress trace of one run. -/
def spTrace (r : RunState) : List (PStatus × Nat) :=
  r.snapshots.map (fun s => (s.status, s.progress))

/-- Trace of a fully successful run. -/
def traceOk : List (PStatus × Nat) :=
  [(.pending, 0), (.fetching, 10), (.processing, 40), (.embedding, 70), (.completed, 100)]

/-- Trace of a run that fails during initialisation or fetching. -/
def traceErrFetch : List (PStatus × Nat) :=
  [(.pending, 0), (.fetching, 10), (.error, 10)]

/-- Trace of a run that fails during transcript processing or embedding. -/
def traceErrEmbed : List (PStatus × Nat) :=
  [(.pending, 0), (.fetching, 10), (.processing, 40), (.embedding, 70), (.error, 70)]

/-- The transition relation of the specified state machine: the linear
chain `pending(0), fetching(10), processing(40), embedding(70),
completed(100)` plus transitions to `error` from `fetching`,
`processing` or `embedding` that keep the current progress. -/
def allowedStep : PStatus × Nat → PStatus × Nat → Bool
  | (.pending, 0), (.fetching, 10) => true
  | (.fetching, 10), (.processing, 40) => true
  | (.processing, 40), (.embedding, 70) => true
  | (.embedding, 70), (.completed, 100) => true
  | (s, p), (.error, q) =>
    (p == q) && (s == .fetching || s == .processing || s == .embedding)
  | _, _ => false

/-- Every adjacent pair of the list satisfies `allowedStep`. -/
def chainOk : List (PStatus × Nat) → Bool
  | [] => true
  | [_] => true
  | a :: b :: t => allowedStep a b && chainOk (b :: t)

/-- The list of numbers is non-decreasing. -/
def nondecreasing : List Nat → Bool
  | [] => true
  | [_] => true
  | a :: b :: t => (a ≤ b : Bool) && nondecreasing (b :: t)

/-! ### Question answering: `AskQuestionView.post`

The view never touches the `ProcessingStatus` record; on success it
appends one `ChatMessage`, on any failure it returns an error response
and leaves the store untouched (`views.py`, lines 183-241). -/

/-- A persisted `ChatMessage` record. -/
structure MessageRec where
  question : String
  answer : String
  context_used : String
deriving DecidableEq

/-- The persisted state visible to the question view: the session status
record, the message list, the processed flag and the stored raw
transcript. -/
structure QAStore where
  processing_status : Snapshot
  messages : List MessageRec
  is_processed : Bool
  raw_transcript : List Segment
deriving DecidableEq

/-- The response of the question view. -/
inductive QAResp where
  | ok (answer : String)
  | fail (error : String)
deriving DecidableEq

/-- Model of `YouTubeTranscriptProcessor.ask_question`
(`services.py`, lines 238-265): reject when the chain is unset,
otherwise return the generation outcome (answer and retrieved context)
or the caught invocation failure. -/
def ask_question (ready : Bool) (answerOutcome : Except String (String × String)) :
    Except String (String × String) :=
  if ready then
    match answerOutcome with
    | .error e => .error ("Error answering question: " ++ e)
    | .ok r => .ok r
  else
    .error "No transcript has been processed yet"

/-- Model of `AskQuestionView.post` (`views.py`, lines 183-241) for an
existing session.  `question` is the stripped question text; `init` is
the outcome of `YouTubeTranscriptProcessor()` (a failure reaches the
generic handler); `answerOutcome` is the outcome of the chain and
retriever invocations.  The result is the updated store and the
response. -/
def ask_question_post {V : Type} (emb : String → Except String V)
    (split : String → List String) (init : Except String Unit)
    (answerOutcome : Except String (String × String))
    (st : QAStore) (question : String) : QAStore × QAResp :=
  if !st.is_processed then
    (st, .fail "Video is still being processed. Please wait.")
  else if question == "" then
    (st, .fail "Question is required")
  else
    match init with
    | .error _ => (st, .fail "Failed to process question")
    | .ok _ =>
      let pr := process_transcript emb split st.raw_transcript
      match pr.1 with
      | .fail _ => (st, .fail "Failed to load transcript data")
      | .ok _ _ =>
        match ask_question (is_ready pr.2) answerOutcome with
        | .error e => (st, .fail e)
        | .ok (a, ctx) =>
          ({ st with messages := st.messages ++ [⟨question, a, ctx⟩] }, .ok a)

/-! ## Helper lemmas -/

/-- The pattern loop of the resolver equals a first-match search over the
per-pattern captures filtered by the length check. -/
lemma findSome?_candidate (url : String) :
    ∀ l : List (List (List Char)),
      l.findSome? (patternCandidate url)
        = ((l.filterMap (fun alts => reSearch alts url.data)).find?
            (fun cap => cap.length == 11)).map String.mk := by
  intro l
  induction l with
  | nil => rfl
  | cons alts t ih =>
    cases hf : reSearch alts url.data with
    | none =>
      have hpc : patternCandidate url alts = none := by
        simp [patternCandidate, hf]
      have hcons : (alts :: t).filterMap (fun a => reSearch a url.data)
          = t.filterMap (fun a => reSearch a url.data) := by
        simp [List.filterMap_cons, hf]
      rw [List.findSome?_cons, hpc, hcons]
      exact ih
    | some cap =>
      have hcons : (alts :: t).filterMap (fun a => reSearch a url.data)
          = cap :: t.filterMap (fun a => reSearch a url.data) := by
        simp [List.filterMap_cons, hf]
      by_cases hp : (cap.length == 11) = true
      · have hpc : patternCandidate url alts = some (String.mk cap) := by
          simp [patternCandidate, hf, hp]
        rw [List.findSome?_cons, hpc, hcons,
          List.find?_cons_of_pos (p := fun c : List Char => c.length == 11) _ hp]
        rfl
      · have hpc : patternCandidate url alts = none := by
          simp [patternCandidate, hf, hp]
        rw [List.findSome?_cons, hpc, hcons,
          List.find?_cons_of_neg (p := fun c : List Char => c.length == 11) _ hp]
        exact ih

/-- C3: for every URL, a resolved identifier is an 11-character capture of
one of the recognised patterns; a URL matched by no pattern resolves to
`none`; and the resolved identifier is the first pattern capture of length
exactly 11 in pattern order, so a wrong-length capture is skipped and
resolution continues with the next pattern. -/
theorem extract_video_id_spec (url : String) :
    (∀ id, extract_video_id url = some id →
        id.length = 11 ∧ ∃ alts ∈ urlPatterns, reSearch alts url.data = some id.data)
    ∧ ((∀ alts ∈ urlPatterns, reSearch alts url.data = none) →
        extract_video_id url = none)
    ∧ extract_video_id url
        = ((urlPatterns.filterMap (fun alts => reSearch alts url.data)).find?
            (fun cap => cap.length == 11)).map String.mk := by
  have hmain : extract_video_id url
      = ((urlPatterns.filterMap (fun alts => reSearch alts url.data)).find?
          (fun cap => cap.length == 11)).map String.mk :=
    findSome?_candidate url urlPatterns
  refine ⟨?_, ?_, hmain⟩
  · intro id h
    rw [hmain] at h
    rcases Option.map_eq_some'.mp h with ⟨cap, hfind, hmk⟩
    have hlen := List.find?_some hfind
    have hmem : cap ∈ urlPatterns.filterMap (fun alts => reSearch alts url.data) :=
      List.mem_of_find?_eq_some hfind
    rcases List.mem_filterMap.mp hmem with ⟨alts, hmemp, hre⟩
    subst hmk
    refine ⟨?_, alts, hmemp, hre⟩
    have hlen2 : cap.length = 11 := by simpa using hlen
    simpa [String.length_mk] using hlen2
  · intro hall
    rw [hmain, List.filterMap_eq_nil_iff.mpr hall]
    rfl

/-- C3 witness: the short-link scenario URL resolves to its identifier,
which is an 11-character capture of a recognised pattern. -/
theorem extract_video_id_spec_witness :
    ("dQw4w9WgXcQ" : String).length = 11
    ∧ ∃ alts ∈ urlPatterns,
        reSearch alts ("https://youtu.be/dQw4w9WgXcQ" : String).data
          = some ("dQw4w9WgXcQ" : String).data :=
  (extract_video_id_spec "https://youtu.be/dQw4w9WgXcQ").1 "dQw4w9WgXcQ" (by decide)

/-- Unfolding lemma for `spaceJoinSpec` when the head itself is an
append. -/
lemma spaceJoinSpec_append_head (a b : String) (t : List String) :
    spaceJoinSpec ((a ++ b) :: t) = a ++ spaceJoinSpec (b :: t) := by
  cases t with
  | nil => rfl
  | cons y t2 => simp [spaceJoinSpec, String.append_assoc]

/-- The accumulating fold of `pyJoin` computes the recursive join. -/
lemma foldl_join_eq (t : List String) :
    ∀ x, t.foldl (fun acc y => acc ++ " " ++ y) x = spaceJoinSpec (x :: t) := by
  induction t with
  | nil => intro x; rfl
  | cons y t2 ih =>
    intro x
    show t2.foldl _ (x ++ " " ++ y) = _
    rw [ih (x ++ " " ++ y), spaceJoinSpec_append_head (x ++ " ") y t2]
    cases t2 <;> simp [spaceJoinSpec, String.append_assoc]

/-- The Python space join equals the recursive specification join. -/
lemma pyJoin_eq_spaceJoinSpec (xs : List String) :
    pyJoin " " xs = spaceJoinSpec xs := by
  cases xs with
  | nil => rfl
  | cons x t => exact foldl_join_eq t x

/-- C4: the full text produced by transcript processing is the segment
texts joined in original order with single-space separators, both as the
derived `full_text` value and in any successful `process_transcript`
result. -/
theorem full_text_is_space_join {V : Type} (emb : String → Except String V)
    (split : String → List String) (transcript_data : List Segment)
    (ft : String) (cc : Nat)
    (h : (process_transcript emb split transcript_data).1 = ProcResult.ok ft cc) :
    ft = spaceJoinSpec (transcript_data.map Segment.text)
    ∧ fullText transcript_data = spaceJoinSpec (transcript_data.map Segment.text) := by
  have hjoin : fullText transcript_data
      = spaceJoinSpec (transcript_data.map Segment.text) :=
    pyJoin_eq_spaceJoinSpec _
  refine ⟨?_, hjoin⟩
  simp only [process_transcript] at h
  rcases hb : buildVectorStore emb (split (fullText transcript_data)) with ⟨store, err⟩
  rw [hb] at h
  cases err with
  | none =>
    simp only [ProcResult.ok.injEq] at h
    rw [← h.1]
    exact hjoin
  | some e => simp at h

/-- C4 witness: a two-segment transcript processed with a trivial splitter
and embedder yields the space-joined full text. -/
theorem full_text_is_space_join_witness :
    ("a b" : String)
        = spaceJoinSpec (List.map Segment.text [⟨"a", 0, 0⟩, ⟨"b", 0, 0⟩])
    ∧ fullText [⟨"a", 0, 0⟩, ⟨"b", 0, 0⟩]
        = spaceJoinSpec (List.map Segment.text [⟨"a", 0, 0⟩, ⟨"b", 0, 0⟩]) :=
  full_text_is_space_join (fun _ => Except.ok (0 : Int)) (fun s => [s])
    [⟨"a", 0, 0⟩, ⟨"b", 0, 0⟩] "a b" 1 (by decide)

/-- C5 counterexample: the claim says a failure description containing
`disabled` is classified as captions-disabled, but the source requires
the description to contain both `transcript` and `disabled`.  The
concrete description `disabled` contains the probed substring, yet the
source classifies it into the generic `Other` category. -/
theorem classify_disabled_only_counterexample :
    containsStr "disabled" (lowerStr "disabled") = true
    ∧ classify_fetch_failure "disabled" ≠ disabledMsg
    ∧ fetch_transcript (Except.error "disabled")
        = FetchResult.fail "Failed to fetch transcript: disabled" := by
  refine ⟨by decide, by decide, by decide⟩

/-- C5 (amended): fetch-failure classification inspects the lowercased
description and classifies it as captions-disabled when it contains both
`transcript` and `disabled`, otherwise as private-or-unavailable when it
contains `private` or `unavailable`, otherwise as
no-transcript-found when it contains `not found`, and otherwise into the
`Other` category carrying the underlying detail. -/
theorem classify_matches_spec (d : String) :
    classify_fetch_failure d = fetchErrorMessage (specClassify d) := by
  unfold classify_fetch_failure specClassify
  by_cases h1 :
      (containsStr "transcript" (lowerStr d) && containsStr "disabled" (lowerStr d)) = true
  · simp [h1, fetchErrorMessage]
  · by_cases h2 :
        (containsStr "private" (lowerStr d) || containsStr "unavailable" (lowerStr d)) = true
    · simp [h1, h2, fetchErrorMessage]
    · by_cases h3 : containsStr "not found" (lowerStr d) = true
      · simp [h1, h2, h3, fetchErrorMessage]
      · simp [h1, h2, h3, fetchErrorMessage]

/-- The conversion loop is a map of the per-entry defaulting. -/
lemma convertEntries_eq_map (l : List RawEntry) :
    convertEntries l = l.map fillEntry := by
  induction l with
  | nil => rfl
  | cons e es ih => simp [convertEntries, ih]

/-- C10: whenever the provider returns at least one entry,
`fetch_transcript` succeeds with exactly one defaulted segment per
provider entry, and the zero-usable-segments failure can only arise from
an empty provider entry list. -/
theorem fetch_success_per_entry (entries : List RawEntry) (h : entries ≠ []) :
    fetch_transcript (Except.ok entries)
        = FetchResult.ok (entries.map fillEntry) "auto-detected"
    ∧ (entries.map fillEntry).length = entries.length
    ∧ ∀ es : List RawEntry,
        fetch_transcript (Except.ok es) = FetchResult.fail malformedMsg → es = [] := by
  refine ⟨?_, by rw [List.length_map], ?_⟩
  · cases entries with
    | nil => exact absurd rfl h
    | cons e es =>
      simp [fetch_transcript, convertEntries, convertEntries_eq_map]
  · intro es hes
    cases es with
    | nil => rfl
    | cons e t =>
      exfalso
      simp [fetch_transcript, convertEntries] at hes

/-- C10 witness: a single provider entry with every field missing yields
a successful one-segment result whose text is the empty string. -/
theorem fetch_success_per_entry_witness :
    fetch_transcript (Except.ok [{ text := none, start := none, duration := none }])
      = FetchResult.ok [{ text := "", start := 0, duration := 0 }] "auto-detected" :=
  (fetch_success_per_entry [{ text := none, start := none, duration := none }]
    (by decide)).1

/-- A string with a non-empty first component is itself non-empty. -/
lemma prefixed_ne_empty (a b : String) (h : 0 < a.length) : a ++ b ≠ "" := by
  intro hc
  have hlen := congrArg String.length hc
  rw [String.length_append] at hlen
  have hz : String.length "" = 0 := rfl
  rw [hz] at hlen
  omega

/-- Every failure message produced by `fetch_transcript` is non-empty. -/
lemma fetch_fail_msg_ne_empty (provider : Except String (List RawEntry))
    (e : String) (h : fetch_transcript provider = FetchResult.fail e) : e ≠ "" := by
  cases provider with
  | error d =>
    have he : e = classify_fetch_failure d := by
      simp only [fetch_transcript, FetchResult.fail.injEq] at h
      exact h.symm
    subst he
    unfold classify_fetch_failure
    by_cases h1 :
        (containsStr "transcript" (lowerStr d) && containsStr "disabled" (lowerStr d)) = true
    · simp only [h1, if_true]
      decide
    · by_cases h2 :
          (containsStr "private" (lowerStr d) || containsStr "unavailable" (lowerStr d)) = true
      · simp only [h1, h2, if_true, if_false]
        decide
      · by_cases h3 : containsStr "not found" (lowerStr d) = true
        · simp only [h1, h2, h3, if_true, if_false]
          decide
        · simp only [h1, h2, h3, if_false]
          exact prefixed_ne_empty "Failed to fetch transcript: " d (by decide)
  | ok entries =>
    cases entries with
    | nil =>
      have he : e = noDataMsg := by
        simp only [fetch_transcript, List.isEmpty_nil, if_true, FetchResult.fail.injEq] at h
        exact h.symm
      subst he
      decide
    | cons x t =>
      exfalso
      simp [fetch_transcript, convertEntries] at h

/-- Every failure message produced by `process_transcript` carries the
processing-error message prefix. -/
lemma process_fail_msg {V : Type} (emb : String → Except String V)
    (split : String → List String) (td : List Segment) (e : String)
    (h : (process_transcript emb split td).1 = ProcResult.fail e) :
    ∃ d, e = procErrMsg d := by
  simp only [process_transcript] at h
  rcases hb : buildVectorStore emb (split (fullText td)) with ⟨store, err⟩
  rw [hb] at h
  cases err with
  | none => simp at h
  | some x =>
    simp only [ProcResult.fail.injEq] at h
    exact ⟨x, h.symm⟩

/-- Every failure message produced by `process_transcript` is non-empty. -/
lemma process_fail_msg_ne_empty {V : Type} (emb : String → Except String V)
    (split : String → List String) (td : List Segment) (e : String)
    (h : (process_transcript emb split td).1 = ProcResult.fail e) : e ≠ "" := by
  rcases process_fail_msg emb split td e h with ⟨d, hd⟩
  subst hd
  exact prefixed_ne_empty "Error processing transcript: " d (by decide)

/-- The slicing recursion ignores fuel beyond the list length. -/
lemma toBatchesAux_fuel {α : Type} :
    ∀ (f1 f2 : Nat) (l : List α), l.length ≤ f1 → l.length ≤ f2 →
      toBatchesAux f1 l = toBatchesAux f2 l := by
  intro f1
  induction f1 with
  | zero =>
    intro f2 l h1 _
    have hl : l = [] := List.eq_nil_of_length_eq_zero (Nat.le_zero.mp h1)
    subst hl
    cases f2 <;> rfl
  | succ f ih =>
    intro f2 l h1 h2
    cases l with
    | nil => cases f2 <;> rfl
    | cons a t =>
      cases f2 with
      | zero => simp at h2
      | succ g =>
        have e1 : toBatchesAux (f + 1) (a :: t)
            = (a :: t).take 60 :: toBatchesAux f ((a :: t).drop 60) := rfl
        have e2 : toBatchesAux (g + 1) (a :: t)
            = (a :: t).take 60 :: toBatchesAux g ((a :: t).drop 60) := rfl
        have hd1 : ((a :: t).drop 60).length ≤ f := by
          simp only [List.length_drop, List.length_cons] at *
          omega
        have hd2 : ((a :: t).drop 60).length ≤ g := by
          simp only [List.length_drop, List.length_cons] at *
          omega
        rw [e1, e2, ih g ((a :: t).drop 60) hd1 hd2]

/-- Unfolding of `toBatches` on a non-empty list: one slice of 60 and the
slicing of the rest. -/
lemma toBatches_cons_unfold {α : Type} (l : List α) (h : l ≠ []) :
    toBatches l = l.take 60 :: toBatches (l.drop 60) := by
  cases l with
  | nil => exact absurd rfl h
  | cons a t =>
    show toBatchesAux (a :: t).length (a :: t) = _
    have e1 : toBatchesAux (t.length + 1) (a :: t)
        = (a :: t).take 60 :: toBatchesAux t.length ((a :: t).drop 60) := rfl
    have hd1 : ((a :: t).drop 60).length ≤ t.length := by
      simp only [List.length_drop, List.length_cons]
      omega
    rw [show (a :: t).length = t.length + 1 from rfl, e1,
      toBatchesAux_fuel t.length ((a :: t).drop 60).length ((a :: t).drop 60) hd1 le_rfl]
    rfl

/-- Concatenating the slices gives back the list (length-bounded form). -/
lemma toBatches_flatten_le {α : Type} :
    ∀ (n : Nat) (l : List α), l.length ≤ n → (toBatches l).flatten = l := by
  intro n
  induction n with
  | zero =>
    intro l h
    have hl : l = [] := List.eq_nil_of_length_eq_zero (Nat.le_zero.mp h)
    subst hl
    rfl
  | succ n ih =>
    intro l h
    cases l with
    | nil => rfl
    | cons a t =>
      rw [toBatches_cons_unfold (a :: t) (by simp), List.flatten_cons,
        ih ((a :: t).drop 60) (by simp only [List.length_drop, List.length_cons] at *; omega)]
      exact List.take_append_drop 60 (a :: t)

/-- Concatenating the slices gives back the list. -/
lemma toBatches_flatten {α : Type} (l : List α) : (toBatches l).flatten = l :=
  toBatches_flatten_le l.length l le_rfl

/-- Every slice produced by `toBatches` has at most 60 elements and is
non-empty. -/
lemma toBatches_mem {α : Type} :
    ∀ (n : Nat) (l : List α), l.length ≤ n →
      ∀ b ∈ toBatches l, b.length ≤ 60 ∧ b ≠ [] := by
  intro n
  induction n with
  | zero =>
    intro l h b hb
    have hl : l = [] := List.eq_nil_of_length_eq_zero (Nat.le_zero.mp h)
    subst hl
    simp [toBatches, toBatchesAux] at hb
  | succ n ih =>
    intro l h b hb
    cases l with
    | nil => simp [toBatches, toBatchesAux] at hb
    | cons a t =>
      rw [toBatches_cons_unfold (a :: t) (by simp)] at hb
      rcases List.mem_cons.mp hb with hb | hb
      · subst hb
        constructor
        · simp [List.length_take]
        · simp [List.take_cons]
      · exact ih ((a :: t).drop 60)
          (by simp only [List.length_drop, List.length_cons] at *; omega) b hb

/-- The batch decomposition of a 150-element list has sizes 60, 60, 30. -/
lemma batchPlan_150 {α : Type} (documents : List α) (h : documents.length = 150) :
    (batchPlan documents).map List.length = [60, 60, 30] := by
  have h1 : (documents.drop 60).length = 90 := by simp [List.length_drop, h]
  have h2 : documents.drop 60 ≠ [] := by
    intro hc
    rw [hc] at h1
    simp at h1
  have h3 : ((documents.drop 60).drop 60).length = 30 := by simp [List.length_drop, h]
  have h4 : (documents.drop 60).drop 60 ≠ [] := by
    intro hc
    rw [hc] at h3
    simp at h3
  have h5 : (((documents.drop 60).drop 60).drop 60).length = 0 := by
    simp [List.length_drop, h]
  have h6 : ((documents.drop 60).drop 60).drop 60 = [] :=
    List.eq_nil_of_length_eq_zero h5
  rw [batchPlan, if_pos (by rw [h]; omega), toBatches_cons_unfold _ h2,
    toBatches_cons_unfold _ h4, h6]
  have h7 : toBatches ([] : List α) = [] := rfl
  rw [h7]
  simp [List.length_take, h, h1, h3]

/-- Embedding a concatenation of successfully embedded batches
concatenates the entries. -/
lemma embedBatch_append {V : Type} (emb : String → Except String V) :
    ∀ (l1 l2 : List String) (e1 e2 : List (String × V)),
      embedBatch emb l1 = Except.ok e1 → embedBatch emb l2 = Except.ok e2 →
      embedBatch emb (l1 ++ l2) = Except.ok (e1 ++ e2) := by
  intro l1
  induction l1 with
  | nil =>
    intro l2 e1 e2 h1 h2
    have he : e1 = [] := by
      simp only [embedBatch, Except.ok.injEq] at h1
      exact h1.symm
    subst he
    simpa using h2
  | cons c cs ih =>
    intro l2 e1 e2 h1 h2
    simp only [embedBatch] at h1
    cases hc : emb c with
    | error e => rw [hc] at h1; simp at h1
    | ok v =>
      rw [hc] at h1
      cases hr : embedBatch emb cs with
      | error e => rw [hr] at h1; simp at h1
      | ok rest =>
        rw [hr] at h1
        simp only [Except.ok.injEq] at h1
        subst h1
        have hih : embedBatch emb (cs ++ l2) = Except.ok (rest ++ e2) :=
          ih l2 rest e2 hr h2
        rw [List.cons_append]
        simp only [embedBatch, hc, hih]
        simp

/-- A successful embedding of a concatenation splits into successful
embeddings of the parts. -/
lemma embedBatch_append_ok {V : Type} (emb : String → Except String V) :
    ∀ (l1 l2 : List String) (es : List (String × V)),
      embedBatch emb (l1 ++ l2) = Except.ok es →
      ∃ e1 e2, embedBatch emb l1 = Except.ok e1 ∧ embedBatch emb l2 = Except.ok e2
        ∧ es = e1 ++ e2 := by
  intro l1
  induction l1 with
  | nil =>
    intro l2 es h
    exact ⟨[], es, rfl, by simpa using h, rfl⟩
  | cons c cs ih =>
    intro l2 es h
    rw [List.cons_append] at h
    simp only [embedBatch] at h
    cases hc : emb c with
    | error e => rw [hc] at h; simp at h
    | ok v =>
      rw [hc] at h
      cases hr : embedBatch emb (cs ++ l2) with
      | error e => rw [hr] at h; simp at h
      | ok rest =>
        rw [hr] at h
        simp only [Except.ok.injEq] at h
        subst h
        rcases ih l2 rest hr with ⟨e1, e2, h1, h2, hrest⟩
        refine ⟨(c, v) :: e1, e2, ?_, h2, by simp [hrest]⟩
        simp only [embedBatch, hc, h1]

/-- When the concatenation of the batches embeds successfully, the merge
loop appends all entries to the accumulator and reports no failure. -/
lemma addBatches_ok {V : Type} (emb : String → Except String V) :
    ∀ (bs : List (List String)) (E : List (String × V)),
      embedBatch emb bs.flatten = Except.ok E →
      ∀ acc, addBatches emb acc bs = (acc ++ E, none) := by
  intro bs
  induction bs with
  | nil =>
    intro E h acc
    have he : E = [] := by
      simp only [List.flatten_nil, embedBatch, Except.ok.injEq] at h
      exact h.symm
    subst he
    simp [addBatches]
  | cons b bs ih =>
    intro E h acc
    rw [List.flatten_cons] at h
    rcases embedBatch_append_ok emb b bs.flatten E h with ⟨e1, e2, h1, h2, hE⟩
    by_cases hb : b.isEmpty
    · have hbnil : b = [] := List.isEmpty_iff.mp hb
      subst hbnil
      have he1 : e1 = [] := by
        simp only [embedBatch, Except.ok.injEq] at h1
        exact h1.symm
      subst he1
      simp only [addBatches, List.isEmpty_nil, if_true, hE, List.nil_append]
      exact ih e2 h2 acc
    · have hih := ih e2 h2 (acc ++ e1)
      simp [addBatches, hb, h1, hih, hE, List.append_assoc]

/-- C6: when every chunk embeds successfully, the batched construction
(first batch builds the index, each further slice of 60 builds a
standalone sub-index that is merged in) produces exactly the single-batch
index, the batch decomposition covers the chunks in order with batches of
at most 60, a 150-chunk input is processed as batches of 60, 60 and 30,
and top-k retrieval over the batched index equals top-k retrieval over
the single-batch index for every query. -/
theorem batched_build_eq_single_build {V : Type} (emb : String → Except String V)
    (documents : List String) (es : List (String × V))
    (h : embedBatch emb documents = Except.ok es) :
    (buildVectorStore emb documents).1 = some es
    ∧ (buildVectorStore emb documents).2 = none
    ∧ (∀ b ∈ batchPlan documents, b.length ≤ 60)
    ∧ (batchPlan documents).flatten = documents
    ∧ (documents.length = 150 → (batchPlan documents).map List.length = [60, 60, 30])
    ∧ ∀ (sim : V → V → Int) (q : V) (k : Nat),
        retrieve sim q k (((buildVectorStore emb documents).1).getD [])
          = retrieve sim q k es := by
  have hstore : buildVectorStore emb documents = (some es, none) := by
    by_cases hlen : documents.length > 60
    · have hsplit : documents.take 60 ++ documents.drop 60 = documents :=
        List.take_append_drop 60 documents
      have h2 : embedBatch emb (documents.take 60 ++ documents.drop 60)
          = Except.ok es := by rw [hsplit]; exact h
      rcases embedBatch_append_ok emb _ _ es h2 with ⟨e1, e2, hop1, hop2, hE⟩
      have hop2f : embedBatch emb (toBatches (documents.drop 60)).flatten
          = Except.ok e2 := by
        rw [toBatches_flatten]
        exact hop2
      have hadd := addBatches_ok emb (toBatches (documents.drop 60)) e2 hop2f e1
      rw [buildVectorStore, if_pos hlen, hop1]
      simp [hadd, hE]
    · rw [buildVectorStore, if_neg hlen, h]
  refine ⟨by rw [hstore], by rw [hstore], ?_, ?_, batchPlan_150 documents, ?_⟩
  · intro b hb
    rw [batchPlan] at hb
    by_cases hlen : documents.length > 60
    · rw [if_pos hlen] at hb
      rcases List.mem_cons.mp hb with hb | hb
      · subst hb
        simp [List.length_take]
      · exact (toBatches_mem (documents.drop 60).length (documents.drop 60)
          le_rfl b hb).1
    · rw [if_neg hlen] at hb
      rcases List.mem_cons.mp hb with hb | hb
      · subst hb
        omega
      · simp at hb
  · rw [batchPlan]
    by_cases hlen : documents.length > 60
    · rw [if_pos hlen, List.flatten_cons, toBatches_flatten]
      exact List.take_append_drop 60 documents
    · rw [if_neg hlen]
      simp
  · intro sim q k
    rw [hstore]
    rfl

/-- C6 witness: 150 identical chunks with a constant embedder are
processed as batches of 60, 60 and 30. -/
theorem batched_build_eq_single_build_witness :
    (batchPlan (List.replicate 150 "c")).map List.length = [60, 60, 30] :=
  (batched_build_eq_single_build (fun _ => Except.ok (0 : Int))
      (List.replicate 150 "c") (List.replicate 150 ("c", (0 : Int)))
      (by rfl)).2.2.2.2.1 (by simp)

/-- Case analysis of the synchronous pipeline trace: every run produces
one of the three possible status/progress traces. -/
lemma sync_trace_cases {V : Type} (emb : String → Except String V)
    (split : String → List String) (init : Except String Unit)
    (provider : Except String (List RawEntry)) :
    spTrace (process_video_sync emb split init provider) = traceOk
    ∨ spTrace (process_video_sync emb split init provider) = traceErrFetch
    ∨ spTrace (process_video_sync emb split init provider) = traceErrEmbed := by
  cases init with
  | error d =>
    right; left
    simp [process_video_sync, spTrace, traceErrFetch]
  | ok u =>
    cases hf : fetch_transcript provider with
    | fail e =>
      right; left
      simp [process_video_sync, spTrace, hf, traceErrFetch]
    | ok segs lang =>
      cases hp : (process_transcript emb split segs).1 with
      | fail e =>
        right; right
        simp [process_video_sync, spTrace, hf, hp, traceErrEmbed]
      | ok ft cc =>
        left
        simp [process_video_sync, spTrace, hf, hp, traceOk]

/-- Case analysis of the asynchronous pipeline trace: every run produces
one of the three possible status/progress traces. -/
lemma async_trace_cases {V : Type} (emb : String → Except String V)
    (split : String → List String) (init : Except String Unit)
    (provider : Except String (List RawEntry)) :
    spTrace (process_video_async emb split init provider) = traceOk
    ∨ spTrace (process_video_async emb split init provider) = traceErrFetch
    ∨ spTrace (process_video_async emb split init provider) = traceErrEmbed := by
  cases init with
  | error d =>
    right; left
    simp [process_video_async, spTrace, traceErrFetch]
  | ok u =>
    cases hf : fetch_transcript provider with
    | fail e =>
      right; left
      simp [process_video_async, spTrace, hf, traceErrFetch]
    | ok segs lang =>
      cases hp : (process_transcript emb split segs).1 with
      | fail e =>
        right; right
        simp [process_video_async, spTrace, hf, hp, traceErrEmbed]
      | ok ft cc =>
        left
        simp [process_video_async, spTrace, hf, hp, traceOk]

/-- C1: every ingestion run (synchronous or asynchronous) persists a
status/progress trace that starts at pending with progress 0, follows the
allowed transitions of the linear state machine (an error transition
keeps the current progress and leaves fetching, processing or embedding),
has non-decreasing progress values, and ends either at completed with
progress 100 or at error. -/
theorem ingestion_status_state_machine {V : Type} (emb : String → Except String V)
    (split : String → List String) (init : Except String Unit)
    (provider : Except String (List RawEntry)) :
    (chainOk (spTrace (process_video_sync emb split init provider)) = true
      ∧ (spTrace (process_video_sync emb split init provider)).head?
          = some (PStatus.pending, 0)
      ∧ nondecreasing
          ((spTrace (process_video_sync emb split init provider)).map Prod.snd) = true
      ∧ ((spTrace (process_video_sync emb split init provider)).getLast?
            = some (PStatus.completed, 100)
          ∨ ((spTrace (process_video_sync emb split init provider)).getLast?).map Prod.fst
            = some PStatus.error))
    ∧ (chainOk (spTrace (process_video_async emb split init provider)) = true
      ∧ (spTrace (process_video_async emb split init provider)).head?
          = some (PStatus.pending, 0)
      ∧ nondecreasing
          ((spTrace (process_video_async emb split init provider)).map Prod.snd) = true
      ∧ ((spTrace (process_video_async emb split init provider)).getLast?
            = some (PStatus.completed, 100)
          ∨ ((spTrace (process_video_async emb split init provider)).getLast?).map Prod.fst
            = some PStatus.error)) := by
  constructor
  · rcases sync_trace_cases emb split init provider with h | h | h <;> rw [h] <;> decide
  · rcases async_trace_cases emb split init provider with h | h | h <;> rw [h] <;> decide

/-- C2: the synchronous and the asynchronous pipeline agree on every
observable of the claim: when initialisation succeeds the whole persisted
final state is identical, and for every initialisation outcome the two
paths persist the same status/progress sequence, the same transcript
record, the same processed flag and the same terminal status. -/
theorem sync_async_pipelines_agree {V : Type} (emb : String → Except String V)
    (split : String → List String) (init : Except String Unit)
    (provider : Except String (List RawEntry)) :
    process_video_sync emb split (Except.ok ()) provider
        = process_video_async emb split (Except.ok ()) provider
    ∧ spTrace (process_video_sync emb split init provider)
        = spTrace (process_video_async emb split init provider)
    ∧ (process_video_sync emb split init provider).transcript
        = (process_video_async emb split init provider).transcript
    ∧ (process_video_sync emb split init provider).is_processed
        = (process_video_async emb split init provider).is_processed
    ∧ ((process_video_sync emb split init provider).snapshots.getLast?).map Snapshot.status
        = ((process_video_async emb split init provider).snapshots.getLast?).map
            Snapshot.status := by
  cases init with
  | ok u => exact ⟨rfl, rfl, rfl, rfl, rfl⟩
  | error d =>
    refine ⟨rfl, ?_, ?_, ?_, ?_⟩ <;>
      simp [process_video_sync, process_video_async, spTrace]

/-- A failing chunk in a batch makes the whole batch embedding fail. -/
lemma embedBatch_fail {V : Type} (emb : String → Except String V) :
    ∀ (l : List String) (c : String) (d : String), c ∈ l → emb c = Except.error d →
      ∃ e, embedBatch emb l = Except.error e := by
  intro l
  induction l with
  | nil => intro c d hc _; simp at hc
  | cons a t ih =>
    intro c d hc hd
    cases ha : emb a with
    | error e => exact ⟨e, by simp [embedBatch, ha]⟩
    | ok v =>
      rcases List.mem_cons.mp hc with hceq | hct
      · subst hceq
        rw [hd] at ha
        simp at ha
      · rcases ih c d hct hd with ⟨e, he⟩
        exact ⟨e, by simp [embedBatch, ha, he]⟩

/-- A failing batch makes the merge loop report a failure. -/
lemma addBatches_fail {V : Type} (emb : String → Except String V) :
    ∀ (bs : List (List String)),
      (∃ b ∈ bs, ∃ e, embedBatch emb b = Except.error e) →
      ∀ acc, ∃ e, (addBatches emb acc bs).2 = some e := by
  intro bs
  induction bs with
  | nil =>
    rintro ⟨b, hb, _⟩
    simp at hb
  | cons b0 t ih =>
    rintro ⟨b, hb, e, he⟩ acc
    by_cases h0 : b0.isEmpty
    · have hb0 : b0 = [] := List.isEmpty_iff.mp h0
      have hbt : b ∈ t := by
        rcases List.mem_cons.mp hb with h | h
        · subst h
          rw [hb0] at he
          simp [embedBatch] at he
        · exact h
      simpa [addBatches, h0] using ih ⟨b, hbt, e, he⟩ acc
    · cases hE : embedBatch emb b0 with
      | error e0 => exact ⟨e0, by simp [addBatches, h0, hE]⟩
      | ok es =>
        have hbt : b ∈ t := by
          rcases List.mem_cons.mp hb with h | h
          · subst h
            exact absurd (he.symm.trans hE) (by simp)
          · exact h
        rcases ih ⟨b, hbt, e, he⟩ (acc ++ es) with ⟨e2, he2⟩
        exact ⟨e2, by simp [addBatches, h0, hE, he2]⟩

/-- A failing chunk anywhere in the document list makes the whole
vector-store construction report a failure. -/
lemma buildVectorStore_fail {V : Type} (emb : String → Except String V)
    (documents : List String)
    (h : ∃ c ∈ documents, ∃ d, emb c = Except.error d) :
    ∃ e, (buildVectorStore emb documents).2 = some e := by
  rcases h with ⟨c, hc, d, hd⟩
  by_cases hlen : documents.length > 60
  · have hc2 : c ∈ documents.take 60 ++ documents.drop 60 := by
      rw [List.take_append_drop]
      exact hc
    rcases List.mem_append.mp hc2 with hctake | hcdrop
    · rcases embedBatch_fail emb _ c d hctake hd with ⟨e, he⟩
      exact ⟨e, by simp [buildVectorStore, hlen, he]⟩
    · cases hE : embedBatch emb (documents.take 60) with
      | error e => exact ⟨e, by simp [buildVectorStore, hlen, hE]⟩
      | ok first =>
        have hcb : ∃ b ∈ toBatches (documents.drop 60), c ∈ b := by
          rw [← toBatches_flatten (documents.drop 60)] at hcdrop
          exact List.mem_flatten.mp hcdrop
        rcases hcb with ⟨b, hbmem, hcb2⟩
        rcases embedBatch_fail emb b c d hcb2 hd with ⟨e0, he0⟩
        rcases addBatches_fail emb (toBatches (documents.drop 60))
          ⟨b, hbmem, e0, he0⟩ first with ⟨e2, he2⟩
        exact ⟨e2, by simp [buildVectorStore, hlen, hE, he2]⟩
  · rcases embedBatch_fail emb documents c d hc hd with ⟨e, he⟩
    exact ⟨e, by simp [buildVectorStore, hlen, he]⟩

/-- When the provider returns at least one entry, `fetch_transcript`
succeeds with the defaulted segments. -/
lemma fetch_ok_of_ne_nil (entries : List RawEntry) (h : entries ≠ []) :
    fetch_transcript (Except.ok entries)
      = FetchResult.ok (entries.map fillEntry) "auto-detected" := by
  cases entries with
  | nil => exact absurd rfl h
  | cons e es => simp [fetch_transcript, convertEntries, convertEntries_eq_map]

/-- A failing vector-store construction makes `process_transcript` fail
with the processing-error message and leaves the processor not ready. -/
lemma process_transcript_fail_of_build_fail {V : Type}
    (emb : String → Except String V) (split : String → List String)
    (td : List Segment) (e : String)
    (he : (buildVectorStore emb (split (fullText td))).2 = some e) :
    (process_transcript emb split td).1 = ProcResult.fail (procErrMsg e)
    ∧ is_ready (process_transcript emb split td).2 = false := by
  simp only [process_transcript]
  rcases hb : buildVectorStore emb (split (fullText td)) with ⟨store, err⟩
  rw [hb] at he
  simp only at he
  subst he
  simp [is_ready]

/-- C7: when the embedding of any chunk fails, the whole build aborts:
`process_transcript` reports a processing failure, the processor is not
ready to answer questions, and both ingestion pipelines record the run
as error with the session left unprocessed. -/
theorem embedding_failure_aborts {V : Type} (emb : String → Except String V)
    (split : String → List String) (entries : List RawEntry)
    (hne : entries ≠ [])
    (hfail : ∃ c ∈ split (fullText (entries.map fillEntry)),
      ∃ d, emb c = Except.error d) :
    (∃ d, (process_transcript emb split (entries.map fillEntry)).1
        = ProcResult.fail (procErrMsg d))
    ∧ is_ready (process_transcript emb split (entries.map fillEntry)).2 = false
    ∧ (process_video_sync emb split (Except.ok ()) (Except.ok entries)).is_processed
        = false
    ∧ ((process_video_sync emb split (Except.ok ())
          (Except.ok entries)).snapshots.getLast?).map Snapshot.status
        = some PStatus.error
    ∧ (process_video_async emb split (Except.ok ()) (Except.ok entries)).is_processed
        = false
    ∧ ((process_video_async emb split (Except.ok ())
          (Except.ok entries)).snapshots.getLast?).map Snapshot.status
        = some PStatus.error := by
  rcases buildVectorStore_fail emb (split (fullText (entries.map fillEntry))) hfail
    with ⟨e, he⟩
  rcases process_transcript_fail_of_build_fail emb split (entries.map fillEntry) e he
    with ⟨hpt, hready⟩
  have hfetch := fetch_ok_of_ne_nil entries hne
  refine ⟨⟨e, hpt⟩, hready, ?_, ?_, ?_, ?_⟩ <;>
    simp [process_video_sync, process_video_async, hfetch, hpt]

/-- C7 witness: one chunk whose embedding fails aborts the build, leaves
the processor not ready and drives the run to error. -/
theorem embedding_failure_aborts_witness :
    (∃ d, (process_transcript (fun _ : String => (Except.error "embedding boom" : Except String Int))
        (fun s => [s]) (List.map fillEntry [⟨some "hello", some 0, some 0⟩])).1
        = ProcResult.fail (procErrMsg d))
    ∧ is_ready (process_transcript (fun _ : String => (Except.error "embedding boom" : Except String Int))
        (fun s => [s]) (List.map fillEntry [⟨some "hello", some 0, some 0⟩])).2 = false
    ∧ (process_video_sync (fun _ : String => (Except.error "embedding boom" : Except String Int))
        (fun s => [s]) (Except.ok ())
        (Except.ok [⟨some "hello", some 0, some 0⟩])).is_processed = false
    ∧ ((process_video_sync (fun _ : String => (Except.error "embedding boom" : Except String Int))
        (fun s => [s]) (Except.ok ())
        (Except.ok [⟨some "hello", some 0, some 0⟩])).snapshots.getLast?).map
          Snapshot.status = some PStatus.error
    ∧ (process_video_async (fun _ : String => (Except.error "embedding boom" : Except String Int))
        (fun s => [s]) (Except.ok ())
        (Except.ok [⟨some "hello", some 0, some 0⟩])).is_processed = false
    ∧ ((process_video_async (fun _ : String => (Except.error "embedding boom" : Except String Int))
        (fun s => [s]) (Except.ok ())
        (Except.ok [⟨some "hello", some 0, some 0⟩])).snapshots.getLast?).map
          Snapshot.status = some PStatus.error :=
  embedding_failure_aborts (fun _ : String => (Except.error "embedding boom" : Except String Int))
    (fun s => [s]) [⟨some "hello", some 0, some 0⟩] (by decide)
    ⟨fullText (List.map fillEntry [⟨some "hello", some 0, some 0⟩]),
      by decide, "embedding boom", rfl⟩

/-- C8 counterexample: in the asynchronous path an initialisation failure
reaches the generic handler, which copies the raw exception description
into the error-message field; when that description is empty the
persisted record has status error with an empty error message, refuting
the claim that the error-message field is non-empty exactly on status
error. -/
theorem error_with_empty_message_reachable :
    (process_video_async (fun _ : String => Except.ok (0 : Int)) (fun s => [s])
        (Except.error "") (Except.ok [])).snapshots
      = [{ status := PStatus.pending, progress := 0, error_message := "" },
         { status := PStatus.fetching, progress := 10, error_message := "" },
         { status := PStatus.error, progress := 10, error_message := "" }]
    ∧ ({ status := PStatus.error, progress := 10, error_message := "" } : Snapshot).status
        = PStatus.error
    ∧ ¬ (({ status := PStatus.error, progress := 10,
            error_message := "" } : Snapshot).error_message ≠ "") := by
  refine ⟨rfl, rfl, by simp⟩

/-- C8 (amended): for every run of either pipeline in which the
initialisation failure detail (when initialisation fails) is non-empty,
every persisted `ProcessingStatus` snapshot has a non-empty error message
exactly when its status is error. -/
theorem error_message_iff_error_status {V : Type} (emb : String → Except String V)
    (split : String → List String) (init : Except String Unit)
    (provider : Except String (List RawEntry))
    (hinit : ∀ d, init = Except.error d → d ≠ "") :
    ∀ s : Snapshot,
      (s ∈ (process_video_sync emb split init provider).snapshots
        ∨ s ∈ (process_video_async emb split init provider).snapshots) →
      ((s.error_message ≠ "") ↔ s.status = PStatus.error) := by
  intro s hs
  cases init with
  | error d =>
    have hd : d ≠ "" := hinit d rfl
    have hcfg : "Configuration error: " ++ d ≠ "" :=
      prefixed_ne_empty "Configuration error: " d (by decide)
    rcases hs with hs | hs <;>
      simp only [process_video_sync, process_video_async, List.mem_cons,
        List.not_mem_nil, or_false] at hs <;>
      rcases hs with rfl | rfl | rfl <;>
      simp [cfgErrMsg, hcfg, hd]
  | ok u =>
    cases hf : fetch_transcript provider with
    | fail err =>
      have herr : err ≠ "" := fetch_fail_msg_ne_empty provider err hf
      rcases hs with hs | hs <;>
        simp only [process_video_sync, process_video_async, hf, List.mem_cons,
          List.not_mem_nil, or_false] at hs <;>
        rcases hs with rfl | rfl | rfl <;>
        simp [herr]
    | ok segs lang =>
      cases hp : (process_transcript emb split segs).1 with
      | fail e =>
        have he : e ≠ "" := process_fail_msg_ne_empty emb split segs e hp
        rcases hs with hs | hs <;>
          simp only [process_video_sync, process_video_async, hf, hp, List.mem_cons,
            List.not_mem_nil, or_false] at hs <;>
          rcases hs with rfl | rfl | rfl | rfl | rfl <;>
          simp [he]
      | ok ft cc =>
        rcases hs with hs | hs <;>
          simp only [process_video_sync, process_video_async, hf, hp, List.mem_cons,
            List.not_mem_nil, or_false] at hs <;>
          rcases hs with rfl | rfl | rfl | rfl | rfl <;>
          simp

/-- C8 witness: in a run whose fetch fails with the no-data message, the
persisted error snapshot has a non-empty message exactly because its
status is error. -/
theorem error_message_iff_error_status_witness :
    ((⟨PStatus.error, 10, "No transcript data returned from the API."⟩ : Snapshot).error_message
      ≠ "")
    ↔ (⟨PStatus.error, 10,
        "No transcript data returned from the API."⟩ : Snapshot).status
      = PStatus.error :=
  error_message_iff_error_status (fun _ : String => Except.ok (0 : Int)) (fun s => [s])
    (Except.ok ()) (Except.ok []) (fun d h => nomatch h)
    ⟨PStatus.error, 10, "No transcript data returned from the API."⟩
    (Or.inl (by decide))

/-- C9: the question view never mutates the processing-status record; on
every failing call the whole persisted store is unchanged (in particular
no message is appended); and a question against an unprocessed session is
rejected with the still-processing error, leaving the store unchanged. -/
theorem ask_question_frame {V : Type} (emb : String → Except String V)
    (split : String → List String) (init : Except String Unit)
    (ans : Except String (String × String)) (st : QAStore) (question : String) :
    ((ask_question_post emb split init ans st question).1.processing_status
        = st.processing_status)
    ∧ (∀ e, (ask_question_post emb split init ans st question).2 = QAResp.fail e →
        (ask_question_post emb split init ans st question).1 = st)
    ∧ (st.is_processed = false →
        (ask_question_post emb split init ans st question).2
            = QAResp.fail "Video is still being processed. Please wait."
        ∧ (ask_question_post emb split init ans st question).1 = st) := by
  cases hp : st.is_processed with
  | false => simp [ask_question_post, hp]
  | true =>
    by_cases hq : (question == "") = true
    · simp [ask_question_post, hp, hq]
    · cases init with
      | error d => simp [ask_question_post, hp, hq]
      | ok u =>
        cases hpt : (process_transcript emb split st.raw_transcript).1 with
        | fail e => simp [ask_question_post, hp, hq, hpt]
        | ok ft cc =>
          cases ha : ask_question
              (is_ready (process_transcript emb split st.raw_transcript).2) ans with
          | error er => simp [ask_question_post, hp, hq, hpt, ha]
          | ok pair =>
            rcases pair with ⟨a, ctx⟩
            simp [ask_question_post, hp, hq, hpt, ha]

/-- C9 witness: a question against an unprocessed session is rejected
with the still-processing error and the store is unchanged. -/
theorem ask_question_frame_witness :
    (ask_question_post (fun _ : String => Except.ok (0 : Int)) (fun s => [s])
        (Except.ok ()) (Except.ok ("a", "c"))
        ⟨⟨PStatus.pending, 0, ""⟩, [], false, []⟩ "q").2
      = QAResp.fail "Video is still being processed. Please wait."
    ∧ (ask_question_post (fun _ : String => Except.ok (0 : Int)) (fun s => [s])
        (Except.ok ()) (Except.ok ("a", "c"))
        ⟨⟨PStatus.pending, 0, ""⟩, [], false, []⟩ "q").1
      = ⟨⟨PStatus.pending, 0, ""⟩, [], false, []⟩ :=
  (ask_question_frame (fun _ : String => Except.ok (0 : Int)) (fun s => [s])
    (Except.ok ()) (Except.ok ("a", "c"))
    ⟨⟨PStatus.pending, 0, ""⟩, [], false, []⟩ "q").2.2 rfl

end RagChatbot
